import Mathlib

/-!
Verification of the copr backend dispatcher (`backend/dispatcher.py`).

The Python module is embedded shallowly: every external effect (the queue,
ansible playbook runs, the SETUP_CACHE contents, `os.makedirs`,
`mockremote` builds, `shutil.move`, log-file writes, `time.time()`) is an
input supplied by an environment record, the observable calls are recorded
in an event trace, and Python exceptions are `Except` errors.  The control
flow of `Worker.run`, `Worker.spawn_instance`, `Worker.terminate_instance`,
`Worker.parse_job` and `Worker.return_results` is translated line by line.
-/

namespace Dispatcher

/-- Python exception classes that appear in the control flow of the dispatcher.
`ansibleError` is `ansible.errors.AnsibleError`; `mockRemoteError` is
`mockremote.MockRemoteError` and `coprWorkerError` is
`errors.CoprWorkerError` (both declared outside this file; they are plain
`Exception` subclasses, in particular not `AnsibleError`s, so the
`except ansible.errors.AnsibleError` clause does not catch them);
`ioError`/`osError` are `IOError`/`OSError`; `valueError`, `keyError` and
`indexError` arise from `json.load` and dict/list access in `parse_job`. -/
inductive Exc where
  | ansibleError (msg : String)
  | coprWorkerError (msg : String)
  | mockRemoteError (msg : String)
  | ioError (msg : String)
  | osError (msg : String)
  | valueError (msg : String)
  | keyError (msg : String)
  | indexError (msg : String)
  deriving Repr, DecidableEq

/-- Observable external calls made while a Worker processes jobs.
`log` is a `self.callback.log(...)` call, `spawnCall` is the
`play.run()` of the spawn playbook, `terminateCall` the `play.run()` of
the terminate playbook, `mkdirCall` an `os.makedirs`, `buildCall` a
`MockRemote(...).build_pkgs(...)` invocation and `moveCall` a
`shutil.move`. -/
inductive Event where
  | log (msg : String)
  | spawnCall
  | terminateCall (ip : String)
  | mkdirCall (dir : String)
  | buildCall (ip : String) (chroot : String) (pkgs : List String)
  | moveCall (src : String) (dst : String)
  deriving Repr, DecidableEq

/-- The configuration bag fields the dispatcher reads (`self.opts`). -/
structure Opts where
  destdir : String
  worker_logdir : String
  spawn_playbook : String
  terminate_playbook : String
  deriving Repr, DecidableEq

/-- The `build["copr"]["owner"]` dict; `none` models a missing key. -/
structure OwnerDict where
  name : Option String
  deriving Repr, DecidableEq

/-- The `build["copr"]` dict; `none` fields model missing keys. -/
structure CoprDict where
  owner : Option OwnerDict
  name : Option String
  id : Option Nat
  deriving Repr, DecidableEq

/-- One element of the `builds` list of the job file; `none` fields model
missing keys. -/
structure BuildDict where
  pkgs : Option String
  repos : Option String
  chroots : Option String
  memory_reqs : Option Nat
  timeout : Option Nat
  copr : Option CoprDict
  id : Option Nat
  user_id : Option Nat
  deriving Repr, DecidableEq

/-- What `json.load(open(jobfile))` yields: either a raised decode error
(`malformed`) or a parsed document whose `builds` key (if present) holds a
list of build dicts. -/
inductive JobFileContent where
  | malformed (msg : String)
  | parsed (builds : Option (List BuildDict))
  deriving Repr, DecidableEq

/-- The record `parse_job` assembles (the `Bunch`). -/
structure JobData where
  pkgs : List String
  repos : List String
  chroots : List String
  memory_reqs : Nat
  timeout : Nat
  destdir : String
  build_id : Nat
  copr_id : Nat
  user_id : Nat
  deriving Repr, DecidableEq, Inhabited

/-- The job record after `Worker.run` adds its mutable lifecycle fields
(`jobfile`, `started_on`, `ended_on`, `status`). -/
structure Job extends JobData where
  jobfile : String
  started_on : Nat
  ended_on : Nat
  status : Nat
  deriving Repr, DecidableEq, Inhabited

/-- Splitting a character list at every occurrence of `sep`, keeping
empty groups — the semantics of the Python `str.split` with an explicit
single-character separator. -/
def splitCharList (sep : Char) : List Char → List (List Char)
  | [] => [[]]
  | c :: cs =>
    match splitCharList sep cs with
    | [] => if c = sep then [[], []] else [[c]]
    | g :: gs => if c = sep then [] :: g :: gs else (c :: g) :: gs

/-- The Python `s.split(sep)` for a single-character separator: split at
every occurrence, preserving empty fields. -/
def pySplit (sep : Char) (s : String) : List String :=
  (splitCharList sep s.data).map (fun l => String.mk l)

/-- Python dict subscripting: a present key yields its value, a missing
key raises `KeyError`. -/
def getKey {α : Type} (k : String) : Option α → Except Exc α
  | some v => Except.ok v
  | none => Except.error (Exc.keyError k)

/-- Embedding of `Worker.parse_job`: take `builds[0]`, split the
space-delimited `pkgs`/`repos`/`chroots` strings, copy the numeric fields
and derive `destdir` from the configured destination root, the project
name of the owner and the project name. Field accesses are performed in
the order of the source, so the first missing key is the one raised. -/
def parse_job (destdir0 : String) (content : JobFileContent) : Except Exc JobData := do
  match content with
  | JobFileContent.malformed m => Except.error (Exc.valueError m)
  | JobFileContent.parsed builds? => do
    let builds ← getKey ("builds") builds?
    let build ← match builds with
      | [] => Except.error (Exc.indexError ("list index out of range"))
      | b :: _ => Except.ok b
    let pkgs ← getKey ("pkgs") build.pkgs
    let repos ← getKey ("repos") build.repos
    let chroots ← getKey ("chroots") build.chroots
    let memory_reqs ← getKey ("memory_reqs") build.memory_reqs
    let timeout ← getKey ("timeout") build.timeout
    let copr ← getKey ("copr") build.copr
    let owner ← getKey ("owner") copr.owner
    let ownerName ← getKey ("name") owner.name
    let coprName ← getKey ("name") copr.name
    let bid ← getKey ("id") build.id
    let cid ← getKey ("id") copr.id
    let uid ← getKey ("user_id") build.user_id
    Except.ok
      { pkgs := pySplit (' ') pkgs
        repos := pySplit (' ') repos
        chroots := pySplit (' ') chroots
        memory_reqs := memory_reqs
        timeout := timeout
        destdir := destdir0 ++ "/" ++ ownerName ++ "/" ++ coprName ++ "/"
        build_id := bid
        copr_id := cid
        user_id := uid }

/-- Python truthiness of `self.ip` / of a returned address: `None` and the
empty string are falsy, every other string is truthy. -/
def pyTruthy : Option String → Bool
  | none => false
  | some s => s != ""

/-- Embedding of `Worker.spawn_instance`.  `ip0` is `self.ip`; `spawn` is
the outcome of `play.run()` — on success it carries the keys of
`play.SETUP_CACHE` in iteration order.  After a successful playbook run,
a truthy `self.ip` is returned directly; otherwise the first cache host
other than the literal `localhost` is returned, and if there is none the
cache is dumped to the log and `None` is returned. -/
def spawn_instance (ip0 : Option String) (spawn : Except Exc (List String)) :
    List Event × Except Exc (Option String) :=
  let t0 := [Event.log ("spawning instance begin"), Event.spawnCall]
  match spawn with
  | Except.error e => (t0, Except.error e)
  | Except.ok cache =>
    let t1 := t0 ++ [Event.log ("spawning instance end")]
    if pyTruthy ip0 then (t1, Except.ok ip0)
    else
      match cache.find? (fun i => i != "localhost") with
      | some i => (t1, Except.ok (some i))
      | none =>
        (t1 ++ [Event.log ("No IP back from spawn_instance - dumping cache output"),
                Event.log (toString cache)],
         Except.ok none)

/-- Embedding of `Worker.terminate_instance`: run the terminate playbook
against the given address; a raise from `play.run()` propagates and the
closing log line is then never written. -/
def terminate_instance (ip : String) (term : Except Exc Unit) :
    List Event × Except Exc Unit :=
  let t0 := [Event.log ("terminate instance begin"), Event.terminateCall ip]
  match term with
  | Except.error e => (t0, Except.error e)
  | Except.ok _ => (t0 ++ [Event.log ("terminate instance end")], Except.ok ())

/-- `os.path.basename`, for slash-separated paths. -/
def basename (p : String) : String := (pySplit ('/') p).getLastD ("")

/-- The status line `return_results` logs before moving the job file. -/
def statusLine (jd : JobData) (status : Nat) (started_on ended_on : Nat) : String :=
  toString jd.build_id ++ " status " ++ toString status ++ ". Took " ++
    toString (ended_on - started_on) ++ " seconds"

/-- Embedding of `Worker.return_results`: log the final job status, then
move the job file into the destination dir; a failed move raises past
`return_results` (there is no handler around `shutil.move`). -/
def return_results (job : Job) (move : Except Exc Unit) :
    List Event × Except Exc Unit :=
  let t1 := [Event.log (statusLine job.toJobData job.status job.started_on job.ended_on),
             Event.moveCall job.jobfile (job.destdir ++ "/" ++ basename job.jobfile)]
  match move with
  | Except.error e => (t1, Except.error e)
  | Except.ok _ => (t1, Except.ok ())

/-- The external world as seen while processing one dequeued job:
`jobfile` is the string handed out by the queue, `content` is what reading
and JSON-decoding that file yields, `spawn`/`terminate` are the outcomes
of the two playbook runs (`spawn` carrying the `SETUP_CACHE` hosts on
success), `dirExists`/`mkdir` describe `os.path.exists`/`os.makedirs` per
directory, `build` the outcome of the mockremote build per chroot, `move`
the outcome of `shutil.move`, and `startTime`/`endTime` the two
`time.time()` readings. -/
structure JobEnv where
  jobfile : String
  content : JobFileContent
  spawn : Except Exc (List String)
  dirExists : String → Bool
  mkdir : String → Except Exc Unit
  build : String → Except Exc Unit
  move : Except Exc Unit
  terminate : Except Exc Unit
  startTime : Nat
  endTime : Nat

/-- The `mockremote` section of one loop iteration: log the `mockremote`
line, construct the `MockRemote` and call `build_pkgs`.  A
`MockRemoteError` is caught, logged with the address, and turns the
aggregate status to `0`; any other exception propagates; on success the
incoming status is kept.  `t0` is the trace accumulated earlier in this
iteration. -/
def buildCallStep (env : JobEnv) (ip : String) (jd : JobData) (chroot : String)
    (status : Nat) (t0 : List Event) : List Event × Except Exc Nat :=
  let t1 := t0 ++ [Event.log ("mockremote " ++ ip ++ " " ++ toString jd.timeout ++ " " ++
                     jd.destdir ++ " " ++ chroot ++ " " ++ toString jd.repos),
                   Event.buildCall ip chroot jd.pkgs]
  match env.build chroot with
  | Except.ok _ => (t1, Except.ok status)
  | Except.error (Exc.mockRemoteError m) =>
    (t1 ++ [Event.log (ip ++ " - " ++ m)], Except.ok 0)
  | Except.error e => (t1, Except.error e)

/-- One iteration of the chroot loop of `Worker.run`: ensure
`job.destdir + "/" + chroot` exists (an `OSError`/`IOError` from
`os.makedirs` is caught and logged, sets the status to `0` and skips the
build via `continue`; any other exception propagates), then run the build
step. -/
def buildTarget (env : JobEnv) (ip : String) (jd : JobData) (chroot : String)
    (status : Nat) : List Event × Except Exc Nat :=
  if env.dirExists (jd.destdir ++ "/" ++ chroot) then
    buildCallStep env ip jd chroot status []
  else
    match env.mkdir (jd.destdir ++ "/" ++ chroot) with
    | Except.ok _ =>
      buildCallStep env ip jd chroot status
        [Event.mkdirCall (jd.destdir ++ "/" ++ chroot)]
    | Except.error (Exc.osError m) =>
      ([Event.mkdirCall (jd.destdir ++ "/" ++ chroot),
        Event.log ("Could not make results dir for job: " ++
          (jd.destdir ++ "/" ++ chroot) ++ " - " ++ m)],
       Except.ok 0)
    | Except.error (Exc.ioError m) =>
      ([Event.mkdirCall (jd.destdir ++ "/" ++ chroot),
        Event.log ("Could not make results dir for job: " ++
          (jd.destdir ++ "/" ++ chroot) ++ " - " ++ m)],
       Except.ok 0)
    | Except.error e =>
      ([Event.mkdirCall (jd.destdir ++ "/" ++ chroot)], Except.error e)

/-- The `for chroot in job.chroots` loop, threading the aggregate status
(initially `1`); an uncaught exception from an iteration stops the loop
and propagates. -/
def buildLoop (env : JobEnv) (ip : String) (jd : JobData) :
    List String → Nat → List Event × Except Exc Nat
  | [], status => ([], Except.ok status)
  | c :: cs, status =>
    match buildTarget env ip jd c status with
    | (t, Except.error e) => (t, Except.error e)
    | (t, Except.ok s2) =>
      match buildLoop env ip jd cs s2 with
      | (t2, r2) => (t ++ t2, r2)

/-- The provisioning block of `Worker.run`: call `spawn_instance`, raise
`CoprWorkerError` if the returned address is falsy, and catch exactly
`ansible.errors.AnsibleError`, logging it and re-raising. -/
def spawnStep (ip0 : Option String) (spawn : Except Exc (List String)) :
    List Event × Except Exc String :=
  match spawn_instance ip0 spawn with
  | (t, Except.error (Exc.ansibleError m)) =>
    (t ++ [Event.log ("failure to setup instance: " ++ m)],
     Except.error (Exc.ansibleError m))
  | (t, Except.error e) => (t, Except.error e)
  | (t, Except.ok ipOpt) =>
    if pyTruthy ipOpt then (t, Except.ok (ipOpt.getD ("")))
    else (t, Except.error (Exc.coprWorkerError ("No IP found from creating instance")))

/-- The job record as it stands when `return_results` is called: the
parsed data plus `jobfile`, the `started_on`/`ended_on` time stamps and
the aggregate `status` computed by the chroot loop. -/
def finishJob (env : JobEnv) (jd : JobData) (status : Nat) : Job :=
  { toJobData := jd, jobfile := env.jobfile, started_on := env.startTime,
    ended_on := env.endTime, status := status }

/-- The tail of the loop body of `Worker.run` once an address `ip` is in
hand: run the chroot loop with status `1`, stamp `ended_on` and `status`
onto the job, call `return_results`, log the finish line and call
`terminate_instance`.  Every uncaught exception propagates and skips the
remaining steps. -/
def runJobWithIp (env : JobEnv) (jd : JobData) (ip : String) :
    List Event × Except Exc Job :=
  match buildLoop env ip jd jd.chroots 1 with
  | (tl, Except.error e) => (tl, Except.error e)
  | (tl, Except.ok status) =>
    match return_results (finishJob env jd status) env.move with
    | (tr, Except.error e) => (tl ++ tr, Except.error e)
    | (tr, Except.ok _) =>
      match terminate_instance ip env.terminate with
      | (tt, Except.error e) =>
        (tl ++ tr ++ [Event.log ("worker finished build: " ++ ip)] ++ tt, Except.error e)
      | (tt, Except.ok _) =>
        (tl ++ tr ++ [Event.log ("worker finished build: " ++ ip)] ++ tt,
         Except.ok (finishJob env jd status))

/-- The loop body of `Worker.run` for one dequeued job file: parse it
(no handler — a parse exception propagates), provision, then run the job
against the obtained address. -/
def processJob (opts : Opts) (ip0 : Option String) (env : JobEnv) :
    List Event × Except Exc Job :=
  match parse_job opts.destdir env.content with
  | Except.error e => ([], Except.error e)
  | Except.ok jd =>
    match spawnStep ip0 env.spawn with
    | (ts, Except.error e) => (ts, Except.error e)
    | (ts, Except.ok ip) =>
      match runJobWithIp env jd ip with
      | (tr, r) => (ts ++ tr, r)

/-- One `self.jobs.get()` outcome: either a job (with its surrounding
environment) or `Queue.Empty`, which breaks the loop. -/
inductive QueueItem where
  | job (env : JobEnv)
  | empty

/-- How a `Worker.run` invocation ended: the loop broke on `Queue.Empty`,
an exception propagated out of the loop body (the worker process dies), or
the modelled queue ran out while the worker would keep looping. -/
inductive RunEnd where
  | queueEmpty
  | crashed (e : Exc)
  | exhausted
  deriving Repr, DecidableEq

/-- Embedding of `Worker.run`: `self.kill_received` is never set in this
module, so the `while` loop runs until `Queue.Empty` breaks it or an
exception escapes the loop body. -/
def Worker.run (opts : Opts) (ip0 : Option String) :
    List QueueItem → List Event × RunEnd
  | [] => ([], RunEnd.exhausted)
  | QueueItem.empty :: _ => ([], RunEnd.queueEmpty)
  | QueueItem.job env :: rest =>
    match processJob opts ip0 env with
    | (t, Except.error e) => (t, RunEnd.crashed e)
    | (t, Except.ok _) =>
      match Worker.run opts ip0 rest with
      | (t2, r2) => (t ++ t2, r2)

/-- Effects of one `WorkerCallback.log` call: a line appended to the log
file, or a complaint on the stderr of the process. -/
inductive LogEffect where
  | wroteLine (file : String) (line : String)
  | stderrLine (msg : String)
  deriving Repr, DecidableEq

/-- Outcome of the `open(self.logfile, "a").write(...)` attempt. -/
inductive WriteOutcome where
  | ok
  | ioError (m : String)
  | osError (m : String)
  deriving Repr, DecidableEq

/-- The body of the `try` in `WorkerCallback.log`: open the log file in
append mode and write `str(now) + ":" + msg + "\n"`; opening or writing
may raise `IOError` or `OSError`. -/
def logAttempt (f : String) (now : Nat) (msg : String) :
    WriteOutcome → Except Exc LogEffect
  | WriteOutcome.ok => Except.ok (LogEffect.wroteLine f (toString now ++ ":" ++ msg ++ "\n"))
  | WriteOutcome.ioError m => Except.error (Exc.ioError m)
  | WriteOutcome.osError m => Except.error (Exc.osError m)

/-- Embedding of `WorkerCallback.log`: return immediately when no log
file is configured; otherwise attempt the write, catching exactly
`(IOError, OSError)` and reporting the failure on stderr.  Any other
exception would propagate (the final arm), but `logAttempt` can only
raise the two caught classes. -/
def WorkerCallback.log (logfile : Option String) (now : Nat) (msg : String)
    (w : WriteOutcome) : Except Exc (List LogEffect) :=
  match logfile with
  | none => Except.ok []
  | some f =>
    match logAttempt f now msg w with
    | Except.ok eff => Except.ok [eff]
    | Except.error (Exc.ioError m) =>
      Except.ok [LogEffect.stderrLine ("Could not write to logfile " ++ f ++ " - " ++ m)]
    | Except.error (Exc.osError m) =>
      Except.ok [LogEffect.stderrLine ("Could not write to logfile " ++ f ++ " - " ++ m)]
    | Except.error e => Except.error e

/-- Is an event the provisioning playbook run? -/
def isSpawnEvent : Event → Bool
  | Event.spawnCall => true
  | _ => false

/-- Is an event the terminate playbook run? -/
def isTerminateEvent : Event → Bool
  | Event.terminateCall _ => true
  | _ => false

/-- Is an event a build-port call? -/
def isBuildEvent : Event → Bool
  | Event.buildCall _ _ _ => true
  | _ => false

/-- Number of provision calls in a trace. -/
def countSpawn (t : List Event) : Nat := (t.filter isSpawnEvent).length

/-- Number of deprovision calls in a trace. -/
def countTerminate (t : List Event) : Nat := (t.filter isTerminateEvent).length

/-- Number of build-port calls in a trace. -/
def countBuild (t : List Event) : Nat := (t.filter isBuildEvent).length

/-- The chroots of the build-port calls of a trace, in call order. -/
def buildChroots (t : List Event) : List String :=
  t.filterMap fun e =>
    match e with
    | Event.buildCall _ c _ => some c
    | _ => none

/-- Did this except-result succeed? -/
def excOk {α : Type} : Except Exc α → Bool
  | Except.ok _ => true
  | Except.error _ => false

/-- The directory step of a target succeeds when the directory already exists
or `os.makedirs` succeeds. -/
def dirReady (env : JobEnv) (dir : String) : Bool :=
  env.dirExists dir || excOk (env.mkdir dir)

/-- The overall outcome of a target (directory creation and build call) is a
success: the directory step succeeds and the build call succeeds. -/
def targetOk (env : JobEnv) (jd : JobData) (chroot : String) : Bool :=
  dirReady env (jd.destdir ++ "/" ++ chroot) && excOk (env.build chroot)

theorem countSpawn_append (t1 t2 : List Event) :
    countSpawn (t1 ++ t2) = countSpawn t1 + countSpawn t2 := by
  simp [countSpawn, List.filter_append]

theorem countTerminate_append (t1 t2 : List Event) :
    countTerminate (t1 ++ t2) = countTerminate t1 + countTerminate t2 := by
  simp [countTerminate, List.filter_append]

theorem countBuild_append (t1 t2 : List Event) :
    countBuild (t1 ++ t2) = countBuild t1 + countBuild t2 := by
  simp [countBuild, List.filter_append]

theorem buildChroots_append (t1 t2 : List Event) :
    buildChroots (t1 ++ t2) = buildChroots t1 ++ buildChroots t2 := by
  simp [buildChroots, List.filterMap_append]

theorem spawn_instance_trace {ip0 : Option String} {sp : Except Exc (List String)}
    {t : List Event} {r : Except Exc (Option String)}
    (h : spawn_instance ip0 sp = (t, r)) :
    countSpawn t = 1 ∧ countTerminate t = 0 ∧ countBuild t = 0 := by
  unfold spawn_instance at h
  cases sp with
  | error e =>
    injection h with h1 h2
    subst h1
    exact ⟨rfl, rfl, rfl⟩
  | ok cache =>
    by_cases hp : pyTruthy ip0
    · simp only [hp, if_true] at h
      injection h with h1 h2
      subst h1
      exact ⟨rfl, rfl, rfl⟩
    · simp only [hp, if_false] at h
      cases hf : cache.find? (fun i => i != "localhost") with
      | some i =>
        rw [hf] at h
        injection h with h1 h2
        subst h1
        exact ⟨rfl, rfl, rfl⟩
      | none =>
        rw [hf] at h
        injection h with h1 h2
        subst h1
        exact ⟨rfl, rfl, rfl⟩

theorem spawnStep_trace {ip0 : Option String} {sp : Except Exc (List String)}
    {t : List Event} {r : Except Exc String}
    (h : spawnStep ip0 sp = (t, r)) :
    countSpawn t = 1 ∧ countTerminate t = 0 ∧ countBuild t = 0 := by
  unfold spawnStep at h
  split at h
  · rename_i t0 m heq
    have hs := spawn_instance_trace heq
    injection h with h1 h2
    subst h1
    refine ⟨?_, ?_, ?_⟩
    · rw [countSpawn_append, hs.1]; rfl
    · rw [countTerminate_append, hs.2.1]; rfl
    · rw [countBuild_append, hs.2.2]; rfl
  · rename_i t0 e hne heq
    have hs := spawn_instance_trace heq
    injection h with h1 h2
    subst h1
    exact hs
  · rename_i t0 ipOpt heq
    have hs := spawn_instance_trace heq
    split at h <;> (injection h with h1 h2; subst h1; exact hs)

theorem buildCallStep_facts {env : JobEnv} {ip : String} {jd : JobData} {c : String}
    {s : Nat} {t0 t : List Event} {r : Except Exc Nat}
    (h : buildCallStep env ip jd c s t0 = (t, r)) :
    countSpawn t = countSpawn t0 ∧ countTerminate t = countTerminate t0 ∧
    buildChroots t = buildChroots t0 ++ [c] ∧
    (∀ s2, r = Except.ok s2 → s2 = (if excOk (env.build c) then s else 0)) := by
  unfold buildCallStep at h
  split at h
  · rename_i v heq
    injection h with h1 h2
    subst h1
    refine ⟨?_, ?_, ?_, ?_⟩
    · rw [countSpawn_append]; rfl
    · rw [countTerminate_append]; rfl
    · rw [buildChroots_append]; rfl
    · intro s2 hs2
      rw [← h2] at hs2
      injection hs2 with hs2
      rw [heq, ← hs2]
      rfl
  · rename_i m heq
    injection h with h1 h2
    subst h1
    refine ⟨?_, ?_, ?_, ?_⟩
    · rw [countSpawn_append, countSpawn_append]; rfl
    · rw [countTerminate_append, countTerminate_append]; rfl
    · rw [buildChroots_append, buildChroots_append]
      simp [buildChroots, List.filterMap]
    · intro s2 hs2
      rw [← h2] at hs2
      injection hs2 with hs2
      rw [heq, ← hs2]
      rfl
  · rename_i e hne heq
    injection h with h1 h2
    subst h1
    refine ⟨?_, ?_, ?_, ?_⟩
    · rw [countSpawn_append]; rfl
    · rw [countTerminate_append]; rfl
    · rw [buildChroots_append]; rfl
    · intro s2 hs2
      rw [← h2] at hs2
      exact absurd hs2 (by simp)

theorem buildTarget_facts {env : JobEnv} {ip : String} {jd : JobData} {c : String}
    {s : Nat} {t : List Event} {r : Except Exc Nat}
    (h : buildTarget env ip jd c s = (t, r)) :
    countSpawn t = 0 ∧ countTerminate t = 0 ∧
    buildChroots t = (if dirReady env (jd.destdir ++ "/" ++ c) then [c] else []) ∧
    (∀ s2, r = Except.ok s2 → s2 = (if targetOk env jd c then s else 0)) := by
  unfold buildTarget at h
  cases hd : env.dirExists (jd.destdir ++ "/" ++ c) with
  | true =>
    rw [hd, if_pos rfl] at h
    have hf := buildCallStep_facts h
    have hdr : dirReady env (jd.destdir ++ "/" ++ c) = true := by
      simp [dirReady, hd]
    have htk : targetOk env jd c = excOk (env.build c) := by
      simp [targetOk, hdr]
    refine ⟨hf.1, hf.2.1, ?_, ?_⟩
    · rw [hf.2.2.1, hdr]
      rfl
    · intro s2 hs2
      rw [htk]
      exact hf.2.2.2 s2 hs2
  | false =>
    rw [hd, if_neg (by decide)] at h
    split at h
    · rename_i a heq
      have hf := buildCallStep_facts h
      have hdr : dirReady env (jd.destdir ++ "/" ++ c) = true := by
        simp [dirReady, hd, heq, excOk]
      have htk : targetOk env jd c = excOk (env.build c) := by
        simp [targetOk, hdr]
      refine ⟨hf.1, hf.2.1, ?_, ?_⟩
      · rw [hf.2.2.1, hdr]
        rfl
      · intro s2 hs2
        rw [htk]
        exact hf.2.2.2 s2 hs2
    · rename_i m heq
      injection h with h1 h2
      subst h1
      have hdr : dirReady env (jd.destdir ++ "/" ++ c) = false := by
        simp [dirReady, hd, heq, excOk]
      have htk : targetOk env jd c = false := by
        simp [targetOk, hdr]
      refine ⟨rfl, rfl, ?_, ?_⟩
      · rw [hdr]
        rfl
      · intro s2 hs2
        rw [← h2] at hs2
        injection hs2 with hs2
        rw [htk, ← hs2]
        rfl
    · rename_i m heq
      injection h with h1 h2
      subst h1
      have hdr : dirReady env (jd.destdir ++ "/" ++ c) = false := by
        simp [dirReady, hd, heq, excOk]
      have htk : targetOk env jd c = false := by
        simp [targetOk, hdr]
      refine ⟨rfl, rfl, ?_, ?_⟩
      · rw [hdr]
        rfl
      · intro s2 hs2
        rw [← h2] at hs2
        injection hs2 with hs2
        rw [htk, ← hs2]
        rfl
    · rename_i e hne1 hne2 heq
      injection h with h1 h2
      subst h1
      have hdr : dirReady env (jd.destdir ++ "/" ++ c) = false := by
        simp [dirReady, hd, heq, excOk]
      refine ⟨rfl, rfl, ?_, ?_⟩
      · rw [hdr]
        rfl
      · intro s2 hs2
        rw [← h2] at hs2
        exact absurd hs2 (by simp)

theorem buildLoop_facts {env : JobEnv} {ip : String} {jd : JobData} {cs : List String} :
    ∀ {s : Nat} {t : List Event} {r : Except Exc Nat},
    buildLoop env ip jd cs s = (t, r) →
    countSpawn t = 0 ∧ countTerminate t = 0 ∧
    (∀ s2, r = Except.ok s2 →
      s2 = (if cs.all (fun c => targetOk env jd c) then s else 0) ∧
      buildChroots t = cs.filter (fun c => dirReady env (jd.destdir ++ "/" ++ c))) := by
  induction cs with
  | nil =>
    intro s t r h
    injection h with h1 h2
    subst h1
    refine ⟨rfl, rfl, ?_⟩
    intro s2 hs2
    rw [← h2] at hs2
    injection hs2 with hs2
    subst hs2
    exact ⟨by simp, rfl⟩
  | cons c cs ih =>
    intro s t r h
    unfold buildLoop at h
    split at h
    · rename_i t1 e heq
      injection h with h1 h2
      subst h1
      have hf := buildTarget_facts heq
      refine ⟨hf.1, hf.2.1, ?_⟩
      intro s2 hs2
      rw [← h2] at hs2
      exact absurd hs2 (by simp)
    · rename_i t1 s1 heq
      rcases hl : buildLoop env ip jd cs s1 with ⟨t2, r2⟩
      rw [hl] at h
      injection h with h1 h2
      subst h1
      subst h2
      have hf := buildTarget_facts heq
      have ihf := ih hl
      refine ⟨?_, ?_, ?_⟩
      · rw [countSpawn_append, hf.1, ihf.1]
      · rw [countTerminate_append, hf.2.1, ihf.2.1]
      · intro s2 hs2
        have hstat1 := hf.2.2.2 s1 rfl
        have ihs := ihf.2.2 s2 hs2
        constructor
        · rw [ihs.1, hstat1]
          by_cases hc : targetOk env jd c
          · by_cases hcs : cs.all (fun x => targetOk env jd x)
            · simp [hc, hcs]
            · simp [hc, hcs]
          · by_cases hcs : cs.all (fun x => targetOk env jd x)
            · simp [hc, hcs]
            · simp [hc, hcs]
        · rw [buildChroots_append, hf.2.2.1, ihs.2, List.filter_cons]
          by_cases hdc : dirReady env (jd.destdir ++ "/" ++ c)
          · simp [hdc]
          · simp [hdc]

theorem return_results_facts {job : Job} {mv : Except Exc Unit}
    {t : List Event} {r : Except Exc Unit}
    (h : return_results job mv = (t, r)) :
    countSpawn t = 0 ∧ countTerminate t = 0 ∧ countBuild t = 0 ∧
    buildChroots t = [] ∧ r = mv ∧
    Event.log (statusLine job.toJobData job.status job.started_on job.ended_on) ∈ t := by
  unfold return_results at h
  cases mv with
  | error e =>
    injection h with h1 h2
    subst h1
    exact ⟨rfl, rfl, rfl, rfl, h2.symm, by simp⟩
  | ok u =>
    cases u
    injection h with h1 h2
    subst h1
    exact ⟨rfl, rfl, rfl, rfl, h2.symm, by simp⟩

theorem terminate_instance_facts {ip : String} {term : Except Exc Unit}
    {t : List Event} {r : Except Exc Unit}
    (h : terminate_instance ip term = (t, r)) :
    countSpawn t = 0 ∧ countTerminate t = 1 ∧ countBuild t = 0 ∧
    buildChroots t = [] ∧ r = term := by
  unfold terminate_instance at h
  cases term with
  | error e =>
    injection h with h1 h2
    subst h1
    exact ⟨rfl, rfl, rfl, rfl, h2.symm⟩
  | ok u =>
    cases u
    injection h with h1 h2
    subst h1
    exact ⟨rfl, rfl, rfl, rfl, h2.symm⟩


theorem runJobWithIp_countSpawn {env : JobEnv} {jd : JobData} {ip : String}
    {t : List Event} {r : Except Exc Job}
    (h : runJobWithIp env jd ip = (t, r)) :
    countSpawn t = 0 := by
  unfold runJobWithIp at h
  split at h
  · rename_i tl e heq
    injection h with h1 h2
    subst h1
    exact (buildLoop_facts heq).1
  · rename_i tl status heq
    have hlf := buildLoop_facts heq
    split at h
    · rename_i tr e heqr
      injection h with h1 h2
      subst h1
      rw [countSpawn_append, hlf.1, (return_results_facts heqr).1]
    · rename_i tr u heqr
      split at h
      · rename_i tt e heqt
        injection h with h1 h2
        subst h1
        rw [countSpawn_append, countSpawn_append, countSpawn_append,
          hlf.1, (return_results_facts heqr).1, (terminate_instance_facts heqt).1]
        rfl
      · rename_i tt u2 heqt
        injection h with h1 h2
        subst h1
        rw [countSpawn_append, countSpawn_append, countSpawn_append,
          hlf.1, (return_results_facts heqr).1, (terminate_instance_facts heqt).1]
        rfl

theorem runJobWithIp_ok {env : JobEnv} {jd : JobData} {ip : String}
    {t : List Event} {job : Job}
    (h : runJobWithIp env jd ip = (t, Except.ok job)) :
    job = finishJob env jd
      (if jd.chroots.all (fun c => targetOk env jd c) then 1 else 0) ∧
    countSpawn t = 0 ∧ countTerminate t = 1 ∧
    buildChroots t = jd.chroots.filter (fun c => dirReady env (jd.destdir ++ "/" ++ c)) ∧
    Event.log (statusLine jd job.status job.started_on job.ended_on) ∈ t ∧
    env.move = Except.ok () ∧ env.terminate = Except.ok () := by
  unfold runJobWithIp at h
  split at h
  · rename_i tl e heq
    injection h with h1 h2
    exact absurd h2.symm (by simp)
  · rename_i tl status heq
    have hlf := buildLoop_facts heq
    have hstat := (hlf.2.2 status rfl).1
    split at h
    · rename_i tr e heqr
      injection h with h1 h2
      exact absurd h2.symm (by simp)
    · rename_i tr u heqr
      have hrf := return_results_facts heqr
      split at h
      · rename_i tt e heqt
        injection h with h1 h2
        exact absurd h2.symm (by simp)
      · rename_i tt u2 heqt
        have htf := terminate_instance_facts heqt
        injection h with h1 h2
        subst h1
        injection h2 with h2
        subst h2
        have hjob : finishJob env jd status =
            finishJob env jd
              (if jd.chroots.all (fun c => targetOk env jd c) then 1 else 0) := by
          rw [← hstat]
        refine ⟨hjob, ?_, ?_, ?_, ?_, ?_, ?_⟩
        · rw [countSpawn_append, countSpawn_append, countSpawn_append,
            hlf.1, hrf.1, htf.1]
          rfl
        · rw [countTerminate_append, countTerminate_append, countTerminate_append,
            hlf.2.1, hrf.2.1, htf.2.1]
          rfl
        · rw [buildChroots_append, buildChroots_append, buildChroots_append,
            (hlf.2.2 status rfl).2, hrf.2.2.2.1, htf.2.2.2.1]
          simp [buildChroots]
        · have hmem := hrf.2.2.2.2.2
          simp only [List.append_assoc, List.mem_append]
          right
          left
          exact hmem
        · cases hmv : env.move with
          | ok u3 => rfl
          | error e =>
            rw [hmv] at hrf
            exact absurd hrf.2.2.2.2.1 (by simp)
        · cases hter : env.terminate with
          | ok u3 => rfl
          | error e =>
            rw [hter] at htf
            exact absurd htf.2.2.2.2 (by simp)

theorem buildChroots_nil_of_countBuild {t : List Event} (h : countBuild t = 0) :
    buildChroots t = [] := by
  induction t with
  | nil => rfl
  | cons a t2 ih =>
    cases a <;>
      simp_all [countBuild, buildChroots, isBuildEvent, List.filter, List.filterMap]

theorem processJob_parse_error {opts : Opts} {ip0 : Option String} {env : JobEnv}
    {e : Exc} (hp : parse_job opts.destdir env.content = Except.error e) :
    processJob opts ip0 env = ([], Except.error e) := by
  unfold processJob
  rw [hp]

theorem processJob_ok {opts : Opts} {ip0 : Option String} {env : JobEnv}
    {t : List Event} {job : Job}
    (h : processJob opts ip0 env = (t, Except.ok job)) :
    parse_job opts.destdir env.content = Except.ok job.toJobData ∧
    job.jobfile = env.jobfile ∧ job.started_on = env.startTime ∧
    job.ended_on = env.endTime ∧
    job.status =
      (if job.chroots.all (fun c => targetOk env job.toJobData c) then 1 else 0) ∧
    countSpawn t = 1 ∧ countTerminate t = 1 ∧
    buildChroots t = job.chroots.filter
      (fun c => dirReady env (job.destdir ++ "/" ++ c)) ∧
    Event.log (statusLine job.toJobData job.status job.started_on job.ended_on) ∈ t := by
  unfold processJob at h
  split at h
  · rename_i e hp
    injection h with h1 h2
    exact absurd h2.symm (by simp)
  · rename_i jd hp
    split at h
    · rename_i ts e hsp
      injection h with h1 h2
      exact absurd h2.symm (by simp)
    · rename_i ts ip hsp
      rcases hr : runJobWithIp env jd ip with ⟨tr, rr⟩
      rw [hr] at h
      injection h with h1 h2
      subst h1
      subst h2
      have hro := runJobWithIp_ok hr
      have hjob := hro.1
      subst hjob
      have hss := spawnStep_trace hsp
      refine ⟨hp, rfl, rfl, rfl, rfl, ?_, ?_, ?_, ?_⟩
      · rw [countSpawn_append, hss.1, hro.2.1]
      · rw [countTerminate_append, hss.2.1, hro.2.2.1]
      · rw [buildChroots_append, hro.2.2.2.1,
          buildChroots_nil_of_countBuild hss.2.2]
        rfl
      · simp only [List.mem_append]
        right
        exact hro.2.2.2.2.1

theorem find?_split {p : String → Bool} : ∀ {l : List String} {a : String},
    l.find? p = some a →
    ∃ l1 l2, l = l1 ++ a :: l2 ∧ ∀ x ∈ l1, p x = false := by
  intro l
  induction l with
  | nil =>
    intro a h
    simp [List.find?] at h
  | cons b l2 ih =>
    intro a h
    by_cases hb : p b = true
    · rw [List.find?_cons_of_pos _ hb] at h
      injection h with h
      subst h
      exact ⟨[], l2, rfl, by simp⟩
    · rw [List.find?_cons_of_neg _ hb] at h
      obtain ⟨l1, l3, heq, hl1⟩ := ih h
      refine ⟨b :: l1, l3, by rw [heq]; rfl, ?_⟩
      intro x hx
      rcases List.mem_cons.mp hx with rfl | hx2
      · exact Bool.not_eq_true _ ▸ eq_false_of_ne_true hb
      · exact hl1 x hx2

/-- Claim C9: for every well-formed job file, `parse_job` returns a
descriptor built from the first element of the `builds` list, with
`pkgs`, `repos` and `chroots` equal to splitting the corresponding
space-delimited string fields on single spaces, and with `destdir` equal
to the configured destination root joined with the owner name and the
project name of the nested project descriptor. -/
theorem claimC9_parse_job_shape (destdir0 ps rs cs own cname : String)
    (mem tmo bid cid uid : Nat) (rest : List BuildDict) :
    parse_job destdir0 (JobFileContent.parsed (some
      ({ pkgs := some ps, repos := some rs, chroots := some cs,
         memory_reqs := some mem, timeout := some tmo,
         copr := some { owner := some { name := some own },
                        name := some cname, id := some cid },
         id := some bid, user_id := some uid } :: rest))) =
    Except.ok
      { pkgs := pySplit (' ') ps, repos := pySplit (' ') rs,
        chroots := pySplit (' ') cs, memory_reqs := mem, timeout := tmo,
        destdir := destdir0 ++ "/" ++ own ++ "/" ++ cname ++ "/",
        build_id := bid, copr_id := cid, user_id := uid } := rfl

/-- Claim C10: when no fixed address is configured, `spawn_instance`
returns the first host of the setup cache of the provisioning run that is not
the literal `localhost` (in particular it never returns `localhost`) and
returns `None` exactly when the cache is empty or holds only
`localhost`; when a fixed (truthy) address is configured it returns
exactly that address. -/
theorem claimC10_spawn_instance_address (ip0 : Option String)
    (hosts : List String) :
    (pyTruthy ip0 = false →
      (∀ h2 : String,
        (spawn_instance ip0 (Except.ok hosts)).2 = Except.ok (some h2) →
        h2 ≠ "localhost" ∧
        ∃ l1 l2, hosts = l1 ++ h2 :: l2 ∧ ∀ x ∈ l1, x = "localhost") ∧
      ((spawn_instance ip0 (Except.ok hosts)).2 = Except.ok none ↔
        ∀ h2 ∈ hosts, h2 = "localhost")) ∧
    (∀ s : String, ip0 = some s → s ≠ "" →
      (spawn_instance ip0 (Except.ok hosts)).2 = Except.ok (some s)) := by
  constructor
  · intro hip
    unfold spawn_instance
    rw [hip]
    simp only [Bool.false_eq_true, if_false]
    cases hf : hosts.find? (fun i => i != "localhost") with
    | some i =>
      constructor
      · intro h2 hh2
        injection hh2 with hh2
        injection hh2 with hh2
        subst hh2
        have hp := List.find?_some hf
        obtain ⟨l1, l2, heq, hl1⟩ := find?_split hf
        refine ⟨by simpa using hp, l1, l2, heq, ?_⟩
        intro x hx
        have := hl1 x hx
        simpa using this
      · constructor
        · intro hnone
          injection hnone with hnone
          cases hnone
        · intro hall
          have : hosts.find? (fun i => i != "localhost") = none := by
            rw [List.find?_eq_none]
            intro x hx
            simp [hall x hx]
          rw [this] at hf
          cases hf
    | none =>
      constructor
      · intro h2 hh2
        injection hh2 with hh2
        cases hh2
      · constructor
        · intro _
          have := List.find?_eq_none.mp hf
          intro h2 hh2
          have hx := this h2 hh2
          simpa using hx
        · intro _
          rfl
  · intro s hs hne
    unfold spawn_instance
    have : pyTruthy ip0 = true := by
      rw [hs]
      simp [pyTruthy, hne]
    rw [this, hs]
    rfl

/-- Claim C8: a `WorkerCallback.log` call never raises past its own
boundary: whatever the outcome of the log-file write, it returns
normally, and when the write fails with an `IOError` or `OSError` the
failure is reported on the stderr of the process. -/
theorem claimC8_log_swallows_io_errors (logfile : Option String) (now : Nat)
    (msg : String) (w : WriteOutcome) :
    ∃ effs, WorkerCallback.log logfile now msg w = Except.ok effs ∧
      ∀ f m, logfile = some f →
        (w = WriteOutcome.ioError m ∨ w = WriteOutcome.osError m) →
        LogEffect.stderrLine ("Could not write to logfile " ++ f ++ " - " ++ m)
          ∈ effs := by
  cases logfile with
  | none =>
    refine ⟨[], rfl, ?_⟩
    intro f m hf
    cases hf
  | some f0 =>
    cases w with
    | ok =>
      refine ⟨[LogEffect.wroteLine f0 (toString now ++ ":" ++ msg ++ "\n")], rfl, ?_⟩
      intro f m hf hw
      rcases hw with hw | hw <;> cases hw
    | ioError m0 =>
      refine ⟨[LogEffect.stderrLine ("Could not write to logfile " ++ f0 ++ " - " ++ m0)],
        rfl, ?_⟩
      intro f m hf hw
      injection hf with hf
      subst hf
      rcases hw with hw | hw
      · injection hw with hw
        subst hw
        simp
      · cases hw
    | osError m0 =>
      refine ⟨[LogEffect.stderrLine ("Could not write to logfile " ++ f0 ++ " - " ++ m0)],
        rfl, ?_⟩
      intro f m hf hw
      injection hf with hf
      subst hf
      rcases hw with hw | hw
      · cases hw
      · injection hw with hw
        subst hw
        simp

theorem workerRun_crashed {opts : Opts} {ip0 : Option String} {env : JobEnv}
    {rest : List QueueItem} {t : List Event} {e : Exc}
    (h : processJob opts ip0 env = (t, Except.error e)) :
    Worker.run opts ip0 (QueueItem.job env :: rest) = (t, RunEnd.crashed e) := by
  simp only [Worker.run, h]

/-- Claim C1: for every job whose `Worker.run` loop body completes
normally, the finalized `status` is `1` (success) iff the outcome of every
target — directory creation and build call — succeeded, and `0`
(failure) iff the outcome of at least one target failed; and the aggregation
is monotonic: once the status of the chroot loop is `0` it stays `0` for the
rest of the loop. -/
theorem claimC1_status_aggregation (opts : Opts) (ip0 : Option String)
    (env : JobEnv) (t : List Event) (job : Job)
    (h : processJob opts ip0 env = (t, Except.ok job)) :
    (job.status = 1 ↔ ∀ c ∈ job.chroots, targetOk env job.toJobData c = true) ∧
    (job.status = 0 ↔ ∃ c ∈ job.chroots, targetOk env job.toJobData c = false) ∧
    (∀ ip cs t2 s2, buildLoop env ip job.toJobData cs 0 = (t2, Except.ok s2) →
      s2 = 0) := by
  have hst := (processJob_ok h).2.2.2.2.1
  refine ⟨?_, ?_, ?_⟩
  · constructor
    · intro h1 c hc
      by_contra hfc
      rw [hst] at h1
      have hall : ¬(job.chroots.all (fun c => targetOk env job.toJobData c) = true) := by
        simp only [List.all_eq_true]
        intro hall
        exact hfc (hall c hc)
      rw [if_neg hall] at h1
      exact absurd h1 (by decide)
    · intro hall
      rw [hst, if_pos (List.all_eq_true.mpr hall)]
  · constructor
    · intro h0
      rw [hst] at h0
      by_cases hall : job.chroots.all (fun c => targetOk env job.toJobData c) = true
      · rw [if_pos hall] at h0
        exact absurd h0 (by decide)
      · simp only [List.all_eq_true, not_forall] at hall
        obtain ⟨c, hc, hfc⟩ := hall
        exact ⟨c, hc, by simpa using hfc⟩
    · rintro ⟨c, hc, hfc⟩
      rw [hst, if_neg ?_]
      simp only [List.all_eq_true]
      intro hall
      rw [hall c hc] at hfc
      exact absurd hfc (by decide)
  · intro ip cs t2 s2 hl
    have hs := ((buildLoop_facts hl).2.2 s2 rfl).1
    rw [hs]
    by_cases hcs : cs.all (fun c => targetOk env job.toJobData c) = true
    · rw [if_pos hcs]
    · rw [if_neg hcs]

/-- Claim C4: for every job whose loop body completes normally, the
build-port calls of the trace visit exactly the targets whose output
directory was available, in the exact order of the target list of the job
descriptor; in particular when every directory step succeeds, every
target is attempted in listed order regardless of build failures. -/
theorem claimC4_targets_in_order (opts : Opts) (ip0 : Option String)
    (env : JobEnv) (t : List Event) (job : Job)
    (h : processJob opts ip0 env = (t, Except.ok job)) :
    buildChroots t = job.chroots.filter
      (fun c => dirReady env (job.destdir ++ "/" ++ c)) ∧
    ((∀ c ∈ job.chroots, dirReady env (job.destdir ++ "/" ++ c) = true) →
      buildChroots t = job.chroots) := by
  have hp := processJob_ok h
  refine ⟨hp.2.2.2.2.2.2.2.1, ?_⟩
  intro hall
  rw [hp.2.2.2.2.2.2.2.1]
  exact List.filter_eq_self.mpr hall

/-- Claim C2 (amended): for every job that reaches the provisioning step
(parse succeeded), exactly one provision call occurs; and whenever the
loop body completes without an uncaught exception — in particular
regardless of how many targets failed and of the success/failure status
of the job — exactly one deprovision call occurs.  (The original claim that deprovision happens unconditionally once an
address was obtained is refuted by the counterexample: an uncaught finalization error skips the
deprovision call.) -/
theorem claimC2_amended_provision_counts (opts : Opts) (ip0 : Option String)
    (env : JobEnv) :
    (∀ jd t r, parse_job opts.destdir env.content = Except.ok jd →
      processJob opts ip0 env = (t, r) → countSpawn t = 1) ∧
    (∀ t job, processJob opts ip0 env = (t, Except.ok job) →
      countSpawn t = 1 ∧ countTerminate t = 1) := by
  constructor
  · intro jd t r hp h
    unfold processJob at h
    split at h
    · rename_i e hpe
      rw [hp] at hpe
      cases hpe
    · rename_i jd2 hp2
      split at h
      · rename_i ts e hsp
        injection h with h1 h2
        subst h1
        exact (spawnStep_trace hsp).1
      · rename_i ts ip hsp
        rcases hr : runJobWithIp env jd2 ip with ⟨tr, rr⟩
        rw [hr] at h
        injection h with h1 h2
        subst h1
        rw [countSpawn_append, (spawnStep_trace hsp).1, runJobWithIp_countSpawn hr]
  · intro t job h
    have hp := processJob_ok h
    exact ⟨hp.2.2.2.2.2.1, hp.2.2.2.2.2.2.1⟩

theorem processJob_comp {opts : Opts} {ip0 : Option String} {env : JobEnv}
    {jd : JobData} {ts : List Event} {ip : String} {tr : List Event}
    {r : Except Exc Job}
    (hp : parse_job opts.destdir env.content = Except.ok jd)
    (hsp : spawnStep ip0 env.spawn = (ts, Except.ok ip))
    (hrj : runJobWithIp env jd ip = (tr, r)) :
    processJob opts ip0 env = (ts ++ tr, r) := by
  simp only [processJob, hp, hsp, hrj]

/-- Claim C3 (amended): for every job whose provisioning step fails —
the spawn playbook raises an Ansible error, or no usable address comes
back from the setup cache — no build-port call is issued and the error
is logged; however the exception is not swallowed: it propagates out of
`Worker.run`, so the Worker terminates instead of proceeding to the next
dequeue. -/
theorem claimC3_amended_provision_failure (opts : Opts) (ip0 : Option String)
    (env : JobEnv) (rest : List QueueItem) :
    (∀ jd m, parse_job opts.destdir env.content = Except.ok jd →
      env.spawn = Except.error (Exc.ansibleError m) →
      ∃ t, Worker.run opts ip0 (QueueItem.job env :: rest) =
          (t, RunEnd.crashed (Exc.ansibleError m)) ∧
        countBuild t = 0 ∧
        Event.log ("failure to setup instance: " ++ m) ∈ t) ∧
    (∀ jd hosts, parse_job opts.destdir env.content = Except.ok jd →
      env.spawn = Except.ok hosts → (∀ x ∈ hosts, x = "localhost") →
      pyTruthy ip0 = false →
      ∃ t, Worker.run opts ip0 (QueueItem.job env :: rest) =
          (t, RunEnd.crashed
            (Exc.coprWorkerError ("No IP found from creating instance"))) ∧
        countBuild t = 0 ∧
        Event.log ("No IP back from spawn_instance - dumping cache output") ∈ t) := by
  constructor
  · intro jd m hp hs
    have hpj : processJob opts ip0 env =
        ([Event.log ("spawning instance begin"), Event.spawnCall,
          Event.log ("failure to setup instance: " ++ m)],
         Except.error (Exc.ansibleError m)) := by
      simp only [processJob, hp, spawnStep, spawn_instance, hs]
      rfl
    refine ⟨_, workerRun_crashed hpj, rfl, ?_⟩
    simp
  · intro jd hosts hp hs hall hip
    have hf : hosts.find? (fun i => i != "localhost") = none := by
      rw [List.find?_eq_none]
      intro x hx
      simp [hall x hx]
    have hpj : processJob opts ip0 env =
        ([Event.log ("spawning instance begin"), Event.spawnCall,
          Event.log ("spawning instance end"),
          Event.log ("No IP back from spawn_instance - dumping cache output"),
          Event.log (toString hosts)],
         Except.error (Exc.coprWorkerError ("No IP found from creating instance"))) := by
      simp only [processJob, hp, spawnStep, spawn_instance, hs, hip, hf]
      rfl
    refine ⟨_, workerRun_crashed hpj, rfl, ?_⟩
    simp

/-- Claim C5 (amended): a dequeued job item whose job file fails to
parse causes zero provisioning calls and zero build calls (the trace is
empty — in particular nothing is logged), but the parse exception is not
caught: `Worker.run` crashes with it instead of remaining alive for the
next queue item. -/
theorem claimC5_amended_parse_failure (opts : Opts) (ip0 : Option String)
    (env : JobEnv) (rest : List QueueItem) (e : Exc)
    (hp : parse_job opts.destdir env.content = Except.error e) :
    Worker.run opts ip0 (QueueItem.job env :: rest) = ([], RunEnd.crashed e) ∧
    countSpawn ([] : List Event) = 0 ∧ countBuild ([] : List Event) = 0 :=
  ⟨workerRun_crashed (processJob_parse_error hp), rfl, rfl⟩

/-- Claim C6 (amended): when the file move of `return_results` fails,
the already-computed job status is not altered — it was logged before
the move — but the failure is not caught: the exception propagates out
of the loop body and the deprovision call is skipped. -/
theorem claimC6_amended_finalization_failure (env : JobEnv) (jd : JobData)
    (ip : String) (e : Exc) (tl : List Event) (s : Nat)
    (hm : env.move = Except.error e)
    (hl : buildLoop env ip jd jd.chroots 1 = (tl, Except.ok s)) :
    ∃ t, runJobWithIp env jd ip = (t, Except.error e) ∧
      countTerminate t = 0 ∧
      Event.log (statusLine jd s env.startTime env.endTime) ∈ t := by
  have hrj : runJobWithIp env jd ip =
      (tl ++ [Event.log (statusLine jd s env.startTime env.endTime),
              Event.moveCall env.jobfile
                (jd.destdir ++ "/" ++ basename env.jobfile)],
       Except.error e) := by
    simp only [runJobWithIp, hl, return_results, finishJob, hm]
  refine ⟨_, hrj, ?_, ?_⟩
  · rw [countTerminate_append, (buildLoop_facts hl).2.1]
    rfl
  · simp

/-- Claim C7 (amended): a failing deprovision call does not alter the
already-finalized job status (the status line was logged during
finalization) and the deprovision call happens exactly once, but the
failure is not merely logged: the exception propagates out of
`Worker.run` and terminates the Worker. -/
theorem claimC7_amended_terminate_failure (opts : Opts) (ip0 : Option String)
    (env : JobEnv) (rest : List QueueItem) (jd : JobData) (ip : String)
    (e : Exc) (ts tl : List Event) (s : Nat)
    (hp : parse_job opts.destdir env.content = Except.ok jd)
    (hsp : spawnStep ip0 env.spawn = (ts, Except.ok ip))
    (hl : buildLoop env ip jd jd.chroots 1 = (tl, Except.ok s))
    (hm : env.move = Except.ok ())
    (ht : env.terminate = Except.error e) :
    ∃ t, Worker.run opts ip0 (QueueItem.job env :: rest) =
        (t, RunEnd.crashed e) ∧
      countTerminate t = 1 ∧
      Event.log (statusLine jd s env.startTime env.endTime) ∈ t := by
  have hrj : runJobWithIp env jd ip =
      (tl ++ [Event.log (statusLine jd s env.startTime env.endTime),
              Event.moveCall env.jobfile
                (jd.destdir ++ "/" ++ basename env.jobfile)] ++
        [Event.log ("worker finished build: " ++ ip)] ++
        [Event.log ("terminate instance begin"), Event.terminateCall ip],
       Except.error e) := by
    simp only [runJobWithIp, hl, return_results, finishJob, hm,
      terminate_instance, ht]
  have hpj := processJob_comp hp hsp hrj
  refine ⟨_, workerRun_crashed hpj, ?_, ?_⟩
  · rw [countTerminate_append, (spawnStep_trace hsp).2.1,
      countTerminate_append, countTerminate_append, countTerminate_append,
      (buildLoop_facts hl).2.1]
    rfl
  · simp

/-- A concrete configuration for the concrete scenarios below. -/
def exOpts : Opts :=
  { destdir := "/var/copr/results", worker_logdir := "/var/log/copr",
    spawn_playbook := "spawn.yml", terminate_playbook := "terminate.yml" }

/-- A well-formed build dict with a single chroot. -/
def exBuild : BuildDict :=
  { pkgs := some ("foo"), repos := some ("repo1"),
    chroots := some ("fedora-rawhide-x86_64"),
    memory_reqs := some 2048, timeout := some 600,
    copr := some { owner := some { name := some ("alice") },
                   name := some ("proj"), id := some 7 },
    id := some 42, user_id := some 3 }

/-- A fully successful environment for that job: the spawn playbook
reports `localhost` and `10.0.0.5` in its setup cache, every directory
is created, the build succeeds, the move succeeds and the terminate
playbook succeeds. -/
def exEnvOk : JobEnv :=
  { jobfile := "/queue/job42.json",
    content := JobFileContent.parsed (some [exBuild]),
    spawn := Except.ok ["localhost", "10.0.0.5"],
    dirExists := fun _ => false,
    mkdir := fun _ => Except.ok (),
    build := fun _ => Except.ok (),
    move := Except.ok (),
    terminate := Except.ok (),
    startTime := 100, endTime := 700 }

/-- The descriptor `parse_job` produces for `exBuild`. -/
def exJd : JobData :=
  (parse_job exOpts.destdir (JobFileContent.parsed (some [exBuild]))).toOption.getD default

/-- Two-target variant where the build of chroot `bad` fails with a
`MockRemoteError`. -/
def c1Env : JobEnv :=
  { exEnvOk with
    content := JobFileContent.parsed (some [{ exBuild with chroots := some ("good bad") }]),
    build := fun c =>
      if c = "bad" then Except.error (Exc.mockRemoteError ("build failed"))
      else Except.ok () }

/-- The trace of processing the `c1Env` job. -/
def c1Trace : List Event := (processJob exOpts none c1Env).1

/-- The finalized job of the `c1Env` run. -/
def c1Job : Job :=
  match (processJob exOpts none c1Env).2 with
  | Except.ok j => j
  | Except.error _ => default

/-- Witness for claim C1 at a concrete job with targets `good bad` where
the build of `bad` fails: the finalized status is `0`. -/
theorem claimC1_witness :
    c1Job.status = 0 ∧ targetOk c1Env c1Job.toJobData ("bad") = false := by
  have hc := claimC1_status_aggregation exOpts none c1Env c1Trace c1Job rfl
  exact ⟨hc.2.1.mpr ⟨"bad", by decide, rfl⟩, rfl⟩

/-- The trace and job of the fully successful `exEnvOk` run. -/
def c2Trace : List Event := (processJob exOpts none exEnvOk).1

/-- The finalized job of the `exEnvOk` run. -/
def c2Job : Job :=
  match (processJob exOpts none exEnvOk).2 with
  | Except.ok j => j
  | Except.error _ => default

/-- Witness for the amended claim C2 at the fully successful job:
exactly one provision and one deprovision call. -/
theorem claimC2_witness :
    countSpawn c2Trace = 1 ∧ countTerminate c2Trace = 1 := by
  have hc := claimC2_amended_provision_counts exOpts none exEnvOk
  have h1 := hc.1 c2Job.toJobData c2Trace (Except.ok c2Job) rfl rfl
  have h2 := hc.2 c2Trace c2Job rfl
  exact ⟨h1, h2.2⟩

/-- Environment whose finalization move fails with an `IOError`. -/
def c2MoveFailEnv : JobEnv :=
  { exEnvOk with move := Except.error (Exc.ioError ("disk full")) }

/-- Counterexample to claim C2 as stated: a machine address is obtained
(spawn succeeds and yields `10.0.0.5`), yet zero deprovision calls occur
for the job, because the finalization move raises and the exception
propagates past the teardown call. -/
theorem claimC2_counterexample :
    (spawn_instance none c2MoveFailEnv.spawn).2 = Except.ok (some ("10.0.0.5")) ∧
    (processJob exOpts none c2MoveFailEnv).2 = Except.error (Exc.ioError ("disk full")) ∧
    countTerminate (processJob exOpts none c2MoveFailEnv).1 = 0 :=
  ⟨rfl, rfl, rfl⟩

/-- Environment whose spawn playbook raises an `AnsibleError`. -/
def c3Env : JobEnv :=
  { exEnvOk with spawn := Except.error (Exc.ansibleError ("ssh unreachable")) }

/-- Environment whose setup cache contains only `localhost`. -/
def c3NoIpEnv : JobEnv :=
  { exEnvOk with spawn := Except.ok ["localhost"] }

/-- Counterexample to claim C3 as stated: with a second job waiting in
the queue, a provisioning failure crashes the Worker — only one spawn is
ever attempted and the loop never reaches the next dequeue — rather than
letting it proceed. -/
theorem claimC3_counterexample :
    (Worker.run exOpts none [QueueItem.job c3Env, QueueItem.job exEnvOk]).2 =
      RunEnd.crashed (Exc.ansibleError ("ssh unreachable")) ∧
    countBuild (Worker.run exOpts none
      [QueueItem.job c3Env, QueueItem.job exEnvOk]).1 = 0 ∧
    countSpawn (Worker.run exOpts none
      [QueueItem.job c3Env, QueueItem.job exEnvOk]).1 = 1 :=
  ⟨rfl, rfl, rfl⟩

/-- Witness for the amended claim C3, in both failure modes: an Ansible
raise and an all-`localhost` setup cache. -/
theorem claimC3_witness :
    (∃ t, Worker.run exOpts none [QueueItem.job c3Env] =
        (t, RunEnd.crashed (Exc.ansibleError ("ssh unreachable"))) ∧
      countBuild t = 0 ∧
      Event.log ("failure to setup instance: " ++ "ssh unreachable") ∈ t) ∧
    (∃ t, Worker.run exOpts none [QueueItem.job c3NoIpEnv] =
        (t, RunEnd.crashed
          (Exc.coprWorkerError ("No IP found from creating instance"))) ∧
      countBuild t = 0 ∧
      Event.log ("No IP back from spawn_instance - dumping cache output") ∈ t) :=
  ⟨(claimC3_amended_provision_failure exOpts none c3Env []).1
      exJd ("ssh unreachable") rfl rfl,
   (claimC3_amended_provision_failure exOpts none c3NoIpEnv []).2
      exJd ["localhost"] rfl rfl (by decide) rfl⟩

/-- The trace and job of the three-target run where only the build of target `B`
fails. -/
def c4Env : JobEnv :=
  { exEnvOk with
    content := JobFileContent.parsed (some [{ exBuild with chroots := some ("A B C") }]),
    build := fun c =>
      if c = "B" then Except.error (Exc.mockRemoteError ("boom"))
      else Except.ok () }

/-- The trace of the `c4Env` run. -/
def c4Trace : List Event := (processJob exOpts none c4Env).1

/-- The finalized job of the `c4Env` run. -/
def c4Job : Job :=
  match (processJob exOpts none c4Env).2 with
  | Except.ok j => j
  | Except.error _ => default

/-- Witness for claim C4: with targets `[A, B, C]` and the build of `B`
failing, all three targets are attempted, in order. -/
theorem claimC4_witness :
    buildChroots c4Trace = ["A", "B", "C"] ∧ c4Job.chroots = ["A", "B", "C"] := by
  have hc := claimC4_targets_in_order exOpts none c4Env c4Trace c4Job rfl
  have h2 := hc.2 (by decide)
  constructor
  · rw [h2]
    rfl
  · rfl

/-- Environment whose job file lacks the `pkgs` key. -/
def c5Env : JobEnv :=
  { exEnvOk with
    content := JobFileContent.parsed (some [{ exBuild with pkgs := none }]) }

/-- Counterexample to claim C5 as stated: with a healthy job waiting
behind it, the malformed job file makes `Worker.run` crash with the
uncaught `KeyError` — the trace stays empty (nothing logged, no calls)
and the next queue item is never processed. -/
theorem claimC5_counterexample :
    Worker.run exOpts none [QueueItem.job c5Env, QueueItem.job exEnvOk] =
      ([], RunEnd.crashed (Exc.keyError ("pkgs"))) := rfl

/-- Witness for the amended claim C5 at the malformed job file. -/
theorem claimC5_witness :
    Worker.run exOpts none [QueueItem.job c5Env] =
      ([], RunEnd.crashed (Exc.keyError ("pkgs"))) ∧
    countSpawn ([] : List Event) = 0 ∧ countBuild ([] : List Event) = 0 :=
  claimC5_amended_parse_failure exOpts none c5Env [] (Exc.keyError ("pkgs")) rfl

/-- Environment whose finalization move fails with an `OSError`. -/
def c6Env : JobEnv :=
  { exEnvOk with move := Except.error (Exc.osError ("no space left on device")) }

/-- Counterexample to claim C6 as stated: when the finalization move
fails, the deprovision call is skipped (zero terminate calls) — the
failure does propagate past `return_results` — even though the computed
job status had already been logged. -/
theorem claimC6_counterexample :
    (processJob exOpts none c6Env).2 =
      Except.error (Exc.osError ("no space left on device")) ∧
    countTerminate (processJob exOpts none c6Env).1 = 0 ∧
    Event.log ("42 status 1. Took 600 seconds") ∈
      (processJob exOpts none c6Env).1 :=
  ⟨rfl, rfl, by decide⟩

/-- The chroot-loop trace of the `c6Env` run. -/
def c6tl : List Event := (buildLoop c6Env ("10.0.0.5") exJd exJd.chroots 1).1

/-- Witness for the amended claim C6 at the concrete failing move. -/
theorem claimC6_witness :
    ∃ t, runJobWithIp c6Env exJd ("10.0.0.5") =
        (t, Except.error (Exc.osError ("no space left on device"))) ∧
      countTerminate t = 0 ∧
      Event.log (statusLine exJd 1 c6Env.startTime c6Env.endTime) ∈ t :=
  claimC6_amended_finalization_failure c6Env exJd ("10.0.0.5")
    (Exc.osError ("no space left on device")) c6tl 1 rfl rfl

/-- Environment whose terminate playbook raises. -/
def c7Env : JobEnv :=
  { exEnvOk with
    terminate := Except.error (Exc.ansibleError ("terminate playbook failed")) }

/-- Counterexample to claim C7 as stated: a failing deprovision call is
not merely logged — the exception escapes `Worker.run` (the closing
`terminate instance end` line is never logged and the second queued job
is never started). -/
theorem claimC7_counterexample :
    (Worker.run exOpts none [QueueItem.job c7Env, QueueItem.job exEnvOk]).2 =
      RunEnd.crashed (Exc.ansibleError ("terminate playbook failed")) ∧
    countSpawn (Worker.run exOpts none
      [QueueItem.job c7Env, QueueItem.job exEnvOk]).1 = 1 ∧
    Event.log ("terminate instance end") ∉
      (Worker.run exOpts none [QueueItem.job c7Env, QueueItem.job exEnvOk]).1 :=
  ⟨rfl, rfl, by decide⟩

/-- The spawn-step trace of the `c7Env` run. -/
def c7ts : List Event := (spawnStep none c7Env.spawn).1

/-- The chroot-loop trace of the `c7Env` run. -/
def c7tl : List Event := (buildLoop c7Env ("10.0.0.5") exJd exJd.chroots 1).1

/-- Witness for the amended claim C7 at the concrete failing terminate
playbook. -/
theorem claimC7_witness :
    ∃ t, Worker.run exOpts none [QueueItem.job c7Env] =
        (t, RunEnd.crashed (Exc.ansibleError ("terminate playbook failed"))) ∧
      countTerminate t = 1 ∧
      Event.log (statusLine exJd 1 c7Env.startTime c7Env.endTime) ∈ t :=
  claimC7_amended_terminate_failure exOpts none c7Env [] exJd ("10.0.0.5")
    (Exc.ansibleError ("terminate playbook failed")) c7ts c7tl 1
    rfl rfl rfl rfl rfl

/-- Witness for claim C8: an `IOError` while writing the log line is
swallowed and reported on stderr. -/
theorem claimC8_witness :
    ∃ effs, WorkerCallback.log (some ("/var/log/copr/worker-1.log")) 160
        ("mockremote start") (WriteOutcome.ioError ("Permission denied")) =
        Except.ok effs ∧
      LogEffect.stderrLine ("Could not write to logfile " ++
        "/var/log/copr/worker-1.log" ++ " - " ++ "Permission denied") ∈ effs := by
  obtain ⟨effs, h1, h2⟩ := claimC8_log_swallows_io_errors
    (some ("/var/log/copr/worker-1.log")) 160 ("mockremote start")
    (WriteOutcome.ioError ("Permission denied"))
  exact ⟨effs, h1, h2 ("/var/log/copr/worker-1.log") ("Permission denied") rfl (Or.inl rfl)⟩

/-- Witness for claim C10 at concrete caches: a mixed cache yields the
first non-`localhost` host, an all-`localhost` cache yields `None`, and
a configured fixed address is returned as-is. -/
theorem claimC10_witness :
    ("10.0.0.5" ≠ "localhost" ∧
      ∃ l1 l2, ["localhost", "10.0.0.5"] = l1 ++ "10.0.0.5" :: l2 ∧
        ∀ x ∈ l1, x = "localhost") ∧
    (spawn_instance none (Except.ok ["localhost"])).2 = Except.ok none ∧
    (spawn_instance (some ("192.168.1.7")) (Except.ok [])).2 =
      Except.ok (some ("192.168.1.7")) := by
  refine ⟨?_, ?_, ?_⟩
  · exact ((claimC10_spawn_instance_address none ["localhost", "10.0.0.5"]).1
      rfl).1 "10.0.0.5" rfl
  · exact ((claimC10_spawn_instance_address none ["localhost"]).1 rfl).2.mpr
      (by decide)
  · exact (claimC10_spawn_instance_address (some ("192.168.1.7")) []).2
      ("192.168.1.7") rfl (by decide)

end Dispatcher
